import Mathlib

/-!
Verification of the dinker image-assembly engine (`dinkerlib/dinkerlib.go`).

The Go code is shallowly embedded as pure Lean functions:

* byte streams are `List Nat`;
* Go maps handed to `BuildImage` (`AddEnv`, `Labels`) are association lists in
  iteration order, since Go map iteration order is arbitrary;
* the cryptographic and serialization primitives (`sha256`, `gzip`, JSON
  rendering of the fixed document shapes, tar entry serialization) are
  parameters (`Prims`); every theorem holds for all instantiations, which
  models exactly the facts the code relies on: these primitives are
  deterministic functions of their input byte streams;
* `canonicalJsonMarshal` (marshal, unmarshal into `map[string]any`, marshal
  again) is modelled by its observable effect: every JSON object produced from
  a Go map is serialized with its keys sorted, so each document is put into a
  canonical form (maps sorted by key) before being passed to the renderer;
* Go string comparison is byte-wise lexicographic; since UTF-8 byte order
  agrees with code-point order, it is modelled by lexicographic comparison of
  `String.data` code points (`goStrLt`, `goStrLe`);
* file-system reads are a parameter `fsys : String → Option (List Nat)`
  giving each path's content; the parsed FROM image archive is a parameter
  `Option FromImage` (the code's `tarfs` view of the archive).
-/

namespace Dinker

/-- Bytes of a stream, as natural numbers. -/
abbrev Bytes := List Nat

/-- Go `Def[T comparable](v, alt T)` from `dinkerlib` at `String`:
returns `alt` when `v` is the zero value `""`. -/
def Def (v alt : String) : String := if v = "" then alt else v

/-- Byte-wise strict comparison of Go strings, on code points
(UTF-8 byte order coincides with code-point order). -/
def charListLt : List Char → List Char → Bool
  | _, [] => false
  | [], _ :: _ => true
  | a :: as, b :: bs =>
    a.toNat < b.toNat || (a.toNat == b.toNat && charListLt as bs)

/-- Go `a < b` on strings. -/
def goStrLt (a b : String) : Bool := charListLt a.data b.data

/-- Go `a <= b` on strings (total order complement of `<`). -/
def goStrLe (a b : String) : Bool := !(goStrLt b a)

/-- The `≤` order used by `sort.Slice(env, func(i,j) {return env[i] < env[j]})`,
as a proposition. -/
def strLeP (a b : String) : Prop := goStrLe a b = true

instance : DecidableRel strLeP := fun a b => by unfold strLeP; infer_instance

theorem charListLt_asymm : ∀ {x y : List Char},
    charListLt x y = true → charListLt y x = false
  | x, [], h => by cases x <;> simp [charListLt] at h
  | [], b :: bs, _ => by simp [charListLt]
  | a :: as, b :: bs, h => by
    simp only [charListLt, Bool.or_eq_true, Bool.and_eq_true, beq_iff_eq,
      decide_eq_true_eq] at h
    simp only [charListLt, Bool.or_eq_false_iff, Bool.and_eq_false_iff,
      decide_eq_false_iff_not, beq_eq_false_iff_ne, ne_eq, not_lt]
    rcases h with h | ⟨he, h⟩
    · exact ⟨by omega, .inl (by omega)⟩
    · exact ⟨by omega, .inr (charListLt_asymm h)⟩

theorem charListLt_trans : ∀ {x y z : List Char},
    charListLt x y = true → charListLt y z = true → charListLt x z = true
  | x, y, [], _, h2 => by cases y <;> simp [charListLt] at h2
  | [], y, c :: cs, _, _ => by simp [charListLt]
  | a :: as, [], c :: cs, h1, _ => by simp [charListLt] at h1
  | a :: as, b :: bs, c :: cs, h1, h2 => by
    simp only [charListLt, Bool.or_eq_true, Bool.and_eq_true, beq_iff_eq,
      decide_eq_true_eq] at h1 h2 ⊢
    rcases h1 with h1 | ⟨he1, h1⟩ <;> rcases h2 with h2 | ⟨he2, h2⟩
    · exact .inl (by omega)
    · exact .inl (by omega)
    · exact .inl (by omega)
    · exact .inr ⟨by omega, charListLt_trans h1 h2⟩

theorem charListLt_total_eq : ∀ {x y : List Char},
    charListLt x y = false → charListLt y x = false → x = y
  | [], [], _, _ => rfl
  | [], b :: bs, h1, _ => by simp [charListLt] at h1
  | a :: as, [], _, h2 => by simp [charListLt] at h2
  | a :: as, b :: bs, h1, h2 => by
    simp only [charListLt, Bool.or_eq_false_iff, Bool.and_eq_false_iff,
      decide_eq_false_iff_not, beq_eq_false_iff_ne, ne_eq, not_lt] at h1 h2
    rcases h1 with ⟨hab, h1⟩
    rcases h2 with ⟨hba, h2⟩
    have he : a.toNat = b.toNat := by omega
    have hac : a = b := Char.ext (UInt32.toNat.inj he)
    subst hac
    rcases h1 with h1 | h1
    · omega
    · rcases h2 with h2 | h2
      · omega
      · exact congrArg (a :: ·) (charListLt_total_eq h1 h2)

instance : IsTotal String strLeP :=
  ⟨fun a b => by
    unfold strLeP goStrLe goStrLt
    rcases h : charListLt b.data a.data with _ | _
    · exact .inl (by simp [h])
    · exact .inr (by simp [charListLt_asymm h])⟩

instance : IsTrans String strLeP :=
  ⟨fun a b c h1 h2 => by
    unfold strLeP goStrLe goStrLt at h1 h2 ⊢
    simp only [Bool.not_eq_true', Bool.not_eq_false] at h1 h2 ⊢
    rcases hca : charListLt c.data a.data with _ | _
    · rfl
    · exfalso
      rcases hbc : charListLt b.data c.data with _ | _
      · have hbceq := charListLt_total_eq hbc h2
        rw [hbceq] at h1
        rw [h1] at hca
        exact Bool.false_ne_true hca
      · have := charListLt_trans hbc hca
        rw [h1] at this
        exact Bool.false_ne_true this⟩

instance : IsAntisymm String strLeP :=
  ⟨fun a b h1 h2 => by
    unfold strLeP goStrLe goStrLt at h1 h2
    simp only [Bool.not_eq_true', Bool.not_eq_false] at h1 h2
    have := charListLt_total_eq h2 h1
    exact String.ext this⟩

/-- `sort.Slice(env, func(i,j) {env[i] < env[j]})`: the result is the unique
sorted permutation of the input with respect to the total string order
(the sort need not be stable, but string equality collapses ties). -/
def sortStrings (l : List String) : List String := List.insertionSort strLeP l

/-- Key order on association-list entries of a Go `map[string]...`
(canonical JSON serialization sorts an object's keys). -/
def pairKeyLe {β : Type} (a b : String × β) : Prop := strLeP a.1 b.1

instance {β : Type} : DecidableRel (pairKeyLe (β := β)) := fun a b => by
  unfold pairKeyLe; infer_instance

instance {β : Type} : IsTotal (String × β) pairKeyLe :=
  ⟨fun a b => IsTotal.total (r := strLeP) a.1 b.1⟩

instance {β : Type} : IsTrans (String × β) pairKeyLe :=
  ⟨fun _ _ _ h1 h2 => IsTrans.trans (r := strLeP) _ _ _ h1 h2⟩

/-- Sorting a Go map's entries by key, as `canonicalJsonMarshal` does when the
re-serialized `map[string]any` is written with sorted keys. -/
def sortByKey {β : Type} (l : List (String × β)) : List (String × β) :=
  List.insertionSort pairKeyLe l

/-- `strconv.ParseInt` digit for base 8. -/
def octDigit (c : Char) : Option Nat :=
  if '0'.toNat ≤ c.toNat ∧ c.toNat ≤ '7'.toNat then some (c.toNat - '0'.toNat) else none

/-- Accumulate base-8 digits, failing on any non-octal character. -/
def octValueAux : List Char → Nat → Option Nat
  | [], acc => some acc
  | c :: rest, acc =>
    match octDigit c with
    | none => none
    | some d => octValueAux rest (acc * 8 + d)

/-- `strconv.ParseInt(s, 8, 32)`: optional sign, then a nonempty run of octal
digits, with the value required to fit in an `int32`; anything else is an
error (`none`). -/
def parseOctal (s : String) : Option Int :=
  match s.data with
  | [] => none
  | c :: rest =>
    let signDigits : Bool × List Char :=
      if c = '-' then (true, rest)
      else if c = '+' then (false, rest)
      else (false, c :: rest)
    match signDigits.2 with
    | [] => none
    | _ :: _ =>
      match octValueAux signDigits.2 0 with
      | none => none
      | some n =>
        let v : Int := if signDigits.1 then -(n : Int) else (n : Int)
        if -(2 ^ 31) ≤ v ∧ v ≤ 2 ^ 31 - 1 then some v else none

/-- Go `filepath.Base`: last path element after trailing separators are
removed; `"."` for the empty path, `"/"` for an all-separator path. -/
def filepathBase (s : String) : String :=
  if s = "" then "."
  else
    let rel := s.data.reverse.dropWhile (fun c => c = '/')
    if rel = [] then "/"
    else ⟨(rel.takeWhile (fun c => c ≠ '/')).reverse⟩

/-- `AbsPath.Join` for the clean relative names used by the build
(`filepath.Clean (filepath.Join dir rel)` is plain concatenation for the
already-clean components the code produces). -/
def absJoin (dir rel : String) : String := dir ++ "/" ++ rel

/-- A sha256 content digest; the algorithm is always sha256 in this program,
so only the hex part is carried. -/
structure Digest where
  hex : String
  deriving DecidableEq

/-- `blobPath`: `fmt.Sprintf("blobs/%s/%s", digest.Algorithm(), digest.Hex())`. -/
def blobPath (d : Digest) : String := "blobs/sha256/" ++ d.hex

/-- OCI descriptor: media type, digest, byte size. -/
structure Descriptor where
  mediaType : String
  digest : Digest
  size : Int
  deriving DecidableEq

def MediaTypeImageManifest : String := "application/vnd.oci.image.manifest.v1+json"

def MediaTypeImageConfig : String := "application/vnd.oci.image.config.v1+json"

def MediaTypeImageLayerGzip : String := "application/vnd.oci.image.layer.v1.tar+gzip"

/-- tar entry type: `tar.TypeReg` or `tar.TypeDir`. -/
inductive TarType where
  | reg
  | dir
  deriving DecidableEq

/-- The fields of `tar.Header` that the code sets. -/
structure TarHeader where
  typeflag : TarType
  name : String
  mode : Int
  size : Nat
  deriving DecidableEq

/-- One tar entry as written: its header plus its content bytes
(empty for directories). -/
structure TarItem where
  header : TarHeader
  content : Bytes
  deriving DecidableEq

/-- `BuildImageArgsFile`: name in parent (defaults to the source's filename),
source path, octal mode string. -/
structure BuildImageArgsFile where
  name : String
  source : String
  mode : String
  deriving DecidableEq

/-- `BuildImageArgsDir`: name in parent, octal mode string, child dirs,
child files. -/
inductive BuildImageArgsDir where
  | mk (name mode : String) (dirs : List BuildImageArgsDir)
      (files : List BuildImageArgsFile)

def BuildImageArgsDir.name : BuildImageArgsDir → String
  | .mk n _ _ _ => n

def BuildImageArgsDir.mode : BuildImageArgsDir → String
  | .mk _ m _ _ => m

def BuildImageArgsDir.dirs : BuildImageArgsDir → List BuildImageArgsDir
  | .mk _ _ ds _ => ds

def BuildImageArgsDir.files : BuildImageArgsDir → List BuildImageArgsFile
  | .mk _ _ _ fs => fs

/-- `BuildImageArgsPort`. -/
structure BuildImageArgsPort where
  port : Int
  transport : String
  deriving DecidableEq

/-- `writeDestFile`: reject a slash in the name, resolve the destination
name/path, parse the octal mode (default `"644"`), stat the source, then
write one regular-file header followed by the file content.  Returns the
tar entries written and an optional error; on error nothing is written for
this entry. -/
def writeDestFile (fsys : String → Option Bytes) (parentPath : String)
    (f : BuildImageArgsFile) : List TarItem × Option String :=
  if f.name.data.contains '/' then
    ([], some ("Dir " ++ f.name ++ " name contains slashes; subdirs must be nested as objects"))
  else
    let destName := Def f.name (filepathBase f.source)
    let destPath := if parentPath = "" then destName else parentPath ++ "/" ++ destName
    match parseOctal (Def f.mode "644") with
    | none => ([], some ("file " ++ destPath ++ " mode " ++ f.mode ++ " is not valid octal"))
    | some mode =>
      match fsys f.source with
      | none => ([], some ("error looking up metadata for layer file " ++ f.source))
      | some content =>
        ([⟨⟨TarType.reg, destPath, mode, content.length⟩, content⟩], none)

/-- The `for _, f := range ... .Files` loop (used by `buildDestDir` for child
files and by `BuildImage` for the top-level `args.Files`): write each file in
order, aborting at the first error. -/
def writeDestFiles (fsys : String → Option Bytes) (parentPath : String) :
    List BuildImageArgsFile → List TarItem × Option String
  | [] => ([], none)
  | f :: rest =>
    let r := writeDestFile fsys parentPath f
    match r.2 with
    | some e => (r.1, some e)
    | none =>
      let rs := writeDestFiles fsys parentPath rest
      (r.1 ++ rs.1, rs.2)

mutual

/-- `buildDestDir`: reject a slash in the name, parse the octal mode
(default `"644"`), write the directory header, then recurse into child dirs
and then child files, aborting at the first error. Returns the tar entries
written so far and an optional error. -/
def buildDestDir (fsys : String → Option Bytes) (parentPath : String) :
    BuildImageArgsDir → List TarItem × Option String
  | .mk name mode dirs files =>
    if name.data.contains '/' then
      ([], some ("Dir " ++ name ++ " name contains slashes; subdirs must be nested as objects"))
    else
      let destPath := if parentPath = "" then name else parentPath ++ "/" ++ name
      match parseOctal (Def mode "644") with
      | none => ([], some ("file " ++ destPath ++ " mode " ++ mode ++ " is not valid octal"))
      | some m =>
        let hd : TarItem := ⟨⟨TarType.dir, destPath, m, 0⟩, []⟩
        let sub := buildDestDirs fsys destPath dirs
        match sub.2 with
        | some e => (hd :: sub.1, some e)
        | none =>
          let fs := writeDestFiles fsys destPath files
          (hd :: sub.1 ++ fs.1, fs.2)

/-- The `for _, f := range d.Dirs` loop of `buildDestDir` (also used for the
top-level `args.Dirs` of `BuildImage`). -/
def buildDestDirs (fsys : String → Option Bytes) (parentPath : String) :
    List BuildImageArgsDir → List TarItem × Option String
  | [] => ([], none)
  | d :: rest =>
    let r := buildDestDir fsys parentPath d
    match r.2 with
    | some e => (r.1, some e)
    | none =>
      let rs := buildDestDirs fsys parentPath rest
      (r.1 ++ rs.1, rs.2)

end

/-- `imagespec.ImageConfig`, restricted to the fields this program sets or
reads.  The Go maps `ExposedPorts` (a key set) and `Labels` are association
lists; `canonicalJsonMarshal` sorts them before serialization (`canonImage`). -/
structure ImageConfig where
  env : List String
  workingDir : String
  user : String
  entrypoint : List String
  cmd : List String
  exposedPorts : List String
  stopSignal : String
  labels : List (String × String)
  deriving DecidableEq

/-- `imagespec.RootFS`. -/
structure RootFS where
  type : String
  diffIds : List Digest
  deriving DecidableEq

/-- `imagespec.Image`: platform fields, process config, root filesystem. -/
structure ImageSpecImage where
  architecture : String
  os : String
  config : ImageConfig
  rootfs : RootFS
  deriving DecidableEq

/-- The Go zero value `var fromConfig imagespec.Image`. -/
def emptyImage : ImageSpecImage :=
  ⟨"", "", ⟨[], "", "", [], [], [], "", []⟩, ⟨"", []⟩⟩

/-- `imagespec.Manifest`, restricted to the fields this program sets. -/
structure ManifestDoc where
  schemaVersion : Int
  mediaType : String
  config : Descriptor
  layers : List Descriptor
  deriving DecidableEq

/-- `imagespec.Index`, restricted to the fields this program sets. -/
structure IndexDoc where
  schemaVersion : Int
  manifests : List Descriptor
  deriving DecidableEq

/-- One layer of the FROM archive as the code reads it: its descriptor from
the base manifest's `Layers` list, and the bytes stored at its blob path. -/
structure FromLayer where
  descriptor : Descriptor
  content : Bytes
  deriving DecidableEq

/-- One entry of the FROM archive's `index.json` manifest list together with
the documents it references: the media type recorded in the index, the
manifest's layer descriptors with their blob contents, and the referenced
image config. -/
structure FromManifestEntry where
  mediaType : String
  layers : List FromLayer
  config : ImageSpecImage
  deriving DecidableEq

/-- The parsed FROM archive (the code's `tarfs` view of `args.FromPath`). -/
structure FromImage where
  manifests : List FromManifestEntry
  deriving DecidableEq

/-- A value stored in `hashData`: either raw written contents
(`writeMemory`/`writeBlob`) or the hex sha256 of streamed contents
(`writeBlobReader`). -/
inductive HashVal where
  | bytes (b : Bytes)
  | hexStr (s : String)
  deriving DecidableEq

/-- `BuildImageArgs`, with the Go maps `AddEnv` and `Labels` given as
association lists in their (arbitrary) iteration order. -/
structure BuildImageArgs where
  fromPath : String
  architecture : String
  os : String
  dirs : List BuildImageArgsDir
  files : List BuildImageArgsFile
  clearEnv : Bool
  addEnv : List (String × String)
  workingDir : String
  user : String
  entrypoint : List String
  cmd : List String
  ports : List BuildImageArgsPort
  stopSignal : String
  labels : List (String × String)
  destDirPath : String

/-- The primitive byte-level functions the build composes: sha256 (as lowercase
hex), gzip, tar serialization of one entry, the tar end-of-archive trailer, and
the JSON renderers for the document shapes the program marshals.  All theorems
hold for every instantiation; the code depends only on these being
deterministic functions of their inputs. -/
structure Prims where
  sha256Hex : Bytes → String
  gzip : Bytes → Bytes
  tarItemBytes : TarItem → Bytes
  tarTrailer : Bytes
  renderLayout : Bytes
  renderImage : ImageSpecImage → Bytes
  renderManifest : ManifestDoc → Bytes
  renderIndex : IndexDoc → Bytes
  renderHashData : List (String × HashVal) → Bytes

/-- One `io.MultiWriter` write: the chunk goes to both sinks. -/
def multiWrite (sink1 sink2 : Bytes) (chunk : Bytes) : Bytes × Bytes :=
  (sink1 ++ chunk, sink2 ++ chunk)

/-- The own-layer stream plumbing of `BuildImage`: the tar writer feeds
`io.MultiWriter(uncompressedDigester, gzWriter)` one chunk per write
(each entry's bytes, then the trailer on `Close`); closing `gzWriter` sends
the compressed stream into `io.MultiWriter(compressedDigester, tmpLayer)`.
Returns (uncompressed-digester input, compressed-digester input, temp-file
content). -/
def runLayerPipeline (p : Prims) (items : List TarItem) : Bytes × Bytes × Bytes :=
  let chunks := items.map p.tarItemBytes ++ [p.tarTrailer]
  let tarOut := chunks.foldl (fun acc c => multiWrite acc.1 acc.2 c) ([], [])
  let gzOut := multiWrite [] [] (p.gzip tarOut.2)
  (tarOut.1, gzOut.1, gzOut.2)

/-- The writes the build accumulates: the `hashData` map, the final state of
the output directory (`files`, last write to a path wins), and the raw
sequence of file writes (`writeLog`). -/
structure BuildState where
  hashData : List (String × HashVal)
  files : List (String × Bytes)
  writeLog : List (String × Bytes)
  deriving DecidableEq

/-- Go map assignment `m[k] = v` on an association list: overwrite the entry
if the key is present, else append it. -/
def mapSet {β : Type} (m : List (String × β)) (k : String) (v : β) :
    List (String × β) :=
  if m.any (fun kv => kv.1 == k) then
    m.map (fun kv => if kv.1 == k then (k, v) else kv)
  else m ++ [(k, v)]

/-- `writeMemory`: record the contents under the absolute path in `hashData`
and write the file. -/
def writeMemory (destDir : String) (st : BuildState) (name : String)
    (contents : Bytes) : BuildState :=
  let pth := absJoin destDir name
  ⟨mapSet st.hashData pth (.bytes contents),
   mapSet st.files pth contents,
   st.writeLog ++ [(pth, contents)]⟩

/-- `writeBlob`: record the contents under the relative blob path in
`hashData`, then `writeMemory` at that blob path. -/
def writeBlob (destDir : String) (st : BuildState) (d : Digest)
    (contents : Bytes) : BuildState :=
  let pth := blobPath d
  writeMemory destDir ⟨mapSet st.hashData pth (.bytes contents), st.files, st.writeLog⟩ pth contents

/-- `writeBlobReader`: stream the reader through
`io.MultiWriter(blobHash, f)` into the blob file, then record the hex sha256
of the streamed bytes in `hashData` under the absolute path. -/
def writeBlobReader (p : Prims) (destDir : String) (st : BuildState)
    (d : Digest) (content : Bytes) : BuildState :=
  let pth := absJoin destDir (blobPath d)
  ⟨mapSet st.hashData pth (.hexStr (p.sha256Hex content)),
   mapSet st.files pth content,
   st.writeLog ++ [(pth, content)]⟩

/-- `canonicalJsonMarshal` on an `imagespec.Image`: serialization after
round-tripping through `map[string]any` sorts every JSON object's keys; the
only objects built from Go maps are `Labels` and `ExposedPorts`. -/
def canonImage (img : ImageSpecImage) : ImageSpecImage :=
  { img with config := { img.config with
      labels := sortByKey img.config.labels
      exposedPorts := sortStrings img.config.exposedPorts } }

/-- `canonicalJsonMarshal` on the `hashData` map: its keys are serialized in
sorted order. -/
def canonHashData (m : List (String × HashVal)) : List (String × HashVal) :=
  sortByKey m

/-- The `ports` map built from `args.Ports`:
`ports[fmt.Sprintf("%d/%s", p.Port, Def(p.Transport, "tcp"))] = struct{}{}`. -/
def portsSet (ports : List BuildImageArgsPort) : List String :=
  ports.foldl
    (fun acc q =>
      let key := toString q.port ++ "/" ++ Def q.transport "tcp"
      if acc.contains key then acc else acc ++ [key])
    []

/-- Lines 328–343 and 346–365 of `dinkerlib.go`: build the environment list
(base env unless cleared, then one `k=v` per `AddEnv` entry, then
`sort.Slice`), the exposed-port set, and the config document with
`Def`-defaulted platform/workingDir/user and override-only entrypoint, cmd,
ports, stop signal and labels. -/
def composeConfig (args : BuildImageArgs) (fromConfig : ImageSpecImage)
    (layerDiffIds : List Digest) : ImageSpecImage :=
  let env0 := (if args.clearEnv then [] else fromConfig.config.env)
      ++ args.addEnv.map (fun kv => kv.1 ++ "=" ++ kv.2)
  let env := sortStrings env0
  { architecture := Def args.architecture fromConfig.architecture
    os := Def args.os fromConfig.os
    config :=
      { env := env
        workingDir := Def args.workingDir fromConfig.config.workingDir
        user := Def args.user fromConfig.config.user
        entrypoint := args.entrypoint
        cmd := args.cmd
        exposedPorts := portsSet args.ports
        stopSignal := args.stopSignal
        labels := args.labels }
    rootfs := { type := "layers", diffIds := layerDiffIds } }

/-- The `for _, layer := range manifest.Layers` copy loop: stream each base
layer blob into the new blob store via `writeBlobReader`. -/
def copyFromLayers (p : Prims) (destDir : String) (ls : List FromLayer)
    (st : BuildState) : BuildState :=
  ls.foldl (fun acc l => writeBlobReader p destDir acc l.descriptor.digest l.content) st

/-- The `for _, m := range index.Manifests` loop: skip entries whose media
type is not an image manifest; for each image manifest append its layer
descriptors, copy its layer blobs, load its config (`fromConfig` keeps the
last one read) and append its diffIDs. Returns the final state, the appended
layer descriptors, the appended diffIDs, and the final `fromConfig`. -/
def processManifests (p : Prims) (destDir : String) :
    List FromManifestEntry → BuildState → ImageSpecImage →
    BuildState × List Descriptor × List Digest × ImageSpecImage
  | [], st, cfg => (st, [], [], cfg)
  | m :: rest, st, cfg =>
    if m.mediaType = MediaTypeImageManifest then
      let st1 := copyFromLayers p destDir m.layers st
      let r := processManifests p destDir rest st1 m.config
      (r.1, m.layers.map (fun l => l.descriptor) ++ r.2.1,
       m.config.rootfs.diffIds ++ r.2.2.1, r.2.2.2)
    else processManifests p destDir rest st cfg

/-- Lines 277–327 of `dinkerlib.go`: when a FROM path is configured, open the
archive (an error if it cannot be opened — modelled by the `Option FromImage`
parameter being `none`) and process its manifests; otherwise `fromConfig`
stays the zero value and nothing is appended. -/
def fromPhase (p : Prims) (destDir fromPath : String) (fi : Option FromImage)
    (st : BuildState) :
    Except String (BuildState × List Descriptor × List Digest × ImageSpecImage) :=
  if fromPath = "" then .ok (st, [], [], emptyImage)
  else
    match fi with
    | none => .error ("error reading FROM image " ++ fromPath ++ ": unable to open from image")
    | some f => .ok (processManifests p destDir f.manifests st emptyImage)

/-- Everything `BuildImage` exposes: the returned build hash, the final
output-directory contents, the raw write sequence, the `hashData` map in
insertion order, the canonical (as-serialized) config document and its
digest, the manifest document and its digest, and the index document. -/
structure BuildOutput where
  hash : String
  files : List (String × Bytes)
  writeLog : List (String × Bytes)
  hashData : List (String × HashVal)
  configDoc : ImageSpecImage
  configDigest : Digest
  manifestDoc : ManifestDoc
  manifestDigest : Digest
  indexDoc : IndexDoc
  deriving DecidableEq

/-- Lines 346–401 of `dinkerlib.go`: `buildJson`/`writeBlob` the config
document, then the manifest, `writeJson` the index, and hash the canonical
serialization of `hashData`. -/
def assemble (p : Prims) (destDir : String) (st : BuildState)
    (layerMetas : List Descriptor) (cfgRaw : ImageSpecImage) : BuildOutput :=
  let cfgCanon := canonImage cfgRaw
  let configBytes := p.renderImage cfgCanon
  let configDigest : Digest := ⟨p.sha256Hex configBytes⟩
  let st1 := writeBlob destDir st configDigest configBytes
  let manifestDoc : ManifestDoc :=
    { schemaVersion := 2
      mediaType := MediaTypeImageManifest
      config := { mediaType := MediaTypeImageConfig, digest := configDigest,
                  size := (configBytes.length : Int) }
      layers := layerMetas }
  let manifestBytes := p.renderManifest manifestDoc
  let manifestDigest : Digest := ⟨p.sha256Hex manifestBytes⟩
  let st2 := writeBlob destDir st1 manifestDigest manifestBytes
  let indexDoc : IndexDoc :=
    { schemaVersion := 2
      manifests := [{ mediaType := MediaTypeImageManifest, digest := manifestDigest,
                      size := (manifestBytes.length : Int) }] }
  let st3 := writeMemory destDir st2 "index.json" (p.renderIndex indexDoc)
  { hash := p.sha256Hex (p.renderHashData (canonHashData st3.hashData))
    files := st3.files
    writeLog := st3.writeLog
    hashData := st3.hashData
    configDoc := cfgCanon
    configDigest := configDigest
    manifestDoc := manifestDoc
    manifestDigest := manifestDigest
    indexDoc := indexDoc }

/-- `BuildImage` (`dinkerlib.go` lines 138–401): write the layout file, build
the own layer through the digesting/compressing pipeline and store its blob,
process the FROM image (if any), compose the config, and assemble
config/manifest/index plus the build hash.  The own layer's descriptor and
diffID always come first; base descriptors and diffIDs are appended after. -/
def BuildImage (p : Prims) (fsys : String → Option Bytes)
    (fromImg : Option FromImage) (args : BuildImageArgs) :
    Except String BuildOutput :=
  let st1 := writeMemory args.destDirPath ⟨[], [], []⟩ "oci-layout" p.renderLayout
  match writeDestFiles fsys "" args.files with
  | (_, some e) => .error e
  | (fileItems, none) =>
    match buildDestDirs fsys "" args.dirs with
    | (_, some e) => .error e
    | (dirItems, none) =>
      let pipe := runLayerPipeline p (fileItems ++ dirItems)
      let layerDigest : Digest := ⟨p.sha256Hex pipe.2.1⟩
      let ownDesc : Descriptor :=
        ⟨MediaTypeImageLayerGzip, layerDigest, (pipe.2.2.length : Int)⟩
      let ownDiffId : Digest := ⟨p.sha256Hex pipe.1⟩
      let st2 := writeBlobReader p args.destDirPath st1 layerDigest pipe.2.2
      match fromPhase p args.destDirPath args.fromPath fromImg st2 with
      | .error e => .error e
      | .ok r =>
        let cfgRaw := composeConfig args r.2.2.2 (ownDiffId :: r.2.2.1)
        .ok (assemble p args.destDirPath r.1 (ownDesc :: r.2.1) cfgRaw)

/-! ### Projections of the build, as standalone functions

These re-derive, from the inputs alone, the intermediate values `BuildImage`
computes; the lemmas below prove that a successful `BuildImage` run produces
exactly them. -/

/-- The tar entries of the newly built layer: top-level files, then dirs. -/
def ownLayerItems (fsys : String → Option Bytes) (args : BuildImageArgs) :
    List TarItem :=
  (writeDestFiles fsys "" args.files).1 ++ (buildDestDirs fsys "" args.dirs).1

/-- The raw (uncompressed) tar byte stream of a list of entries. -/
def tarStreamBytes (p : Prims) (items : List TarItem) : Bytes :=
  (items.map p.tarItemBytes).flatten ++ p.tarTrailer

/-- The manifest descriptor of the newly built layer. -/
def ownLayerDesc (p : Prims) (fsys : String → Option Bytes)
    (args : BuildImageArgs) : Descriptor :=
  ⟨MediaTypeImageLayerGzip,
   ⟨p.sha256Hex (runLayerPipeline p (ownLayerItems fsys args)).2.1⟩,
   ((runLayerPipeline p (ownLayerItems fsys args)).2.2.length : Int)⟩

/-- The diffID of the newly built layer. -/
def ownLayerDiffId (p : Prims) (fsys : String → Option Bytes)
    (args : BuildImageArgs) : Digest :=
  ⟨p.sha256Hex (runLayerPipeline p (ownLayerItems fsys args)).1⟩

/-- The manifest entries the FROM phase iterates over ( `[]` when no FROM
path is set or the archive could not be opened — the latter makes
`BuildImage` fail before using them). -/
def fromManifestsOf (fromPath : String) (fi : Option FromImage) :
    List FromManifestEntry :=
  if fromPath = "" then []
  else
    match fi with
    | none => []
    | some f => f.manifests

/-- Layer descriptors contributed by the FROM image, in order. -/
def manifestsDescs (ms : List FromManifestEntry) : List Descriptor :=
  ((ms.filter (fun m => m.mediaType == MediaTypeImageManifest)).map
    (fun m => m.layers.map (fun l => l.descriptor))).flatten

/-- diffIDs contributed by the FROM image, in order. -/
def manifestsDiffIds (ms : List FromManifestEntry) : List Digest :=
  ((ms.filter (fun m => m.mediaType == MediaTypeImageManifest)).map
    (fun m => m.config.rootfs.diffIds)).flatten

/-- The last config loaded by the manifest loop (or the initial one). -/
def manifestsLastConfig (ms : List FromManifestEntry) (cfg : ImageSpecImage) :
    ImageSpecImage :=
  (ms.filter (fun m => m.mediaType == MediaTypeImageManifest)).foldl
    (fun _ m => m.config) cfg

/-- The build state after the manifest loop's blob copies. -/
def manifestsState (p : Prims) (destDir : String)
    (ms : List FromManifestEntry) (st : BuildState) : BuildState :=
  (ms.filter (fun m => m.mediaType == MediaTypeImageManifest)).foldl
    (fun acc m => copyFromLayers p destDir m.layers acc) st

/-- The build state before the FROM phase: layout file written, own layer
blob streamed in. -/
def preFromState (p : Prims) (fsys : String → Option Bytes)
    (args : BuildImageArgs) : BuildState :=
  writeBlobReader p args.destDirPath
    (writeMemory args.destDirPath ⟨[], [], []⟩ "oci-layout" p.renderLayout)
    (ownLayerDesc p fsys args).digest
    (runLayerPipeline p (ownLayerItems fsys args)).2.2

/-- The value a successful `BuildImage` run returns. -/
def buildResult (p : Prims) (fsys : String → Option Bytes)
    (fi : Option FromImage) (args : BuildImageArgs) : BuildOutput :=
  assemble p args.destDirPath
    (manifestsState p args.destDirPath (fromManifestsOf args.fromPath fi)
      (preFromState p fsys args))
    (ownLayerDesc p fsys args :: manifestsDescs (fromManifestsOf args.fromPath fi))
    (composeConfig args
      (manifestsLastConfig (fromManifestsOf args.fromPath fi) emptyImage)
      (ownLayerDiffId p fsys args :: manifestsDiffIds (fromManifestsOf args.fromPath fi)))

/-! ### Helper lemmas -/

theorem sortStrings_perm {l1 l2 : List String} (h : l1.Perm l2) :
    sortStrings l1 = sortStrings l2 := by
  unfold sortStrings
  exact List.eq_of_perm_of_sorted
    ((List.perm_insertionSort strLeP l1).trans
      (h.trans (List.perm_insertionSort strLeP l2).symm))
    (List.sorted_insertionSort strLeP l1)
    (List.sorted_insertionSort strLeP l2)

/-- Strict-or-equal key order on map entries; antisymmetric, so sorted
permutations agree. -/
def pairKeyLtEq {β : Type} (a b : String × β) : Prop :=
  goStrLt a.1 b.1 = true ∨ a = b

instance {β : Type} : IsAntisymm (String × β) pairKeyLtEq :=
  ⟨fun a b h1 h2 => by
    rcases h1 with h1 | h1
    · rcases h2 with h2 | h2
      · have := charListLt_asymm h1
        unfold goStrLt at h2
        rw [this] at h2
        exact absurd h2 Bool.false_ne_true
      · exact h2.symm
    · exact h1⟩

theorem sorted_nodup_pairKeyLtEq {β : Type} {s : List (String × β)}
    (hs : List.Sorted pairKeyLe s) (hnd : (s.map Prod.fst).Nodup) :
    List.Sorted pairKeyLtEq s := by
  have hnd' : List.Pairwise (fun a b : String × β => a.1 ≠ b.1) s := by
    rw [List.Nodup, List.pairwise_map] at hnd
    exact hnd
  refine (hs.and hnd').imp ?_
  rintro a b ⟨hle, hne⟩
  unfold pairKeyLtEq
  left
  unfold pairKeyLe strLeP goStrLe goStrLt at hle
  simp only [Bool.not_eq_true', Bool.not_eq_false] at hle
  unfold goStrLt
  rcases hab : charListLt a.1.data b.1.data with _ | _
  · exact absurd (String.ext (charListLt_total_eq hab hle)) hne
  · rfl

theorem sortByKey_perm_nodup {β : Type} {l1 l2 : List (String × β)}
    (h : l1.Perm l2) (hnd : (l1.map Prod.fst).Nodup) :
    sortByKey l1 = sortByKey l2 := by
  unfold sortByKey
  have p1 := List.perm_insertionSort (pairKeyLe (β := β)) l1
  have p2 := List.perm_insertionSort (pairKeyLe (β := β)) l2
  have hnd1 : ((List.insertionSort pairKeyLe l1).map Prod.fst).Nodup :=
    (p1.map Prod.fst).nodup_iff.mpr hnd
  have hnd2 : ((List.insertionSort pairKeyLe l2).map Prod.fst).Nodup :=
    (p2.map Prod.fst).nodup_iff.mpr ((h.map Prod.fst).nodup_iff.mp hnd)
  exact List.eq_of_perm_of_sorted
    (p1.trans (h.trans p2.symm))
    (sorted_nodup_pairKeyLtEq (List.sorted_insertionSort pairKeyLe l1) hnd1)
    (sorted_nodup_pairKeyLtEq (List.sorted_insertionSort pairKeyLe l2) hnd2)

theorem foldl_multiWrite (chunks : List Bytes) :
    ∀ a b : Bytes,
      chunks.foldl (fun acc c => multiWrite acc.1 acc.2 c) (a, b) =
        (a ++ chunks.flatten, b ++ chunks.flatten) := by
  induction chunks with
  | nil => intro a b; simp
  | cons c rest ih =>
    intro a b
    simp only [List.foldl_cons, List.flatten_cons]
    rw [show multiWrite a b c = (a ++ c, b ++ c) from rfl, ih]
    simp [List.append_assoc]

theorem runLayerPipeline_eq (p : Prims) (items : List TarItem) :
    runLayerPipeline p items =
      (tarStreamBytes p items, p.gzip (tarStreamBytes p items),
       p.gzip (tarStreamBytes p items)) := by
  simp only [runLayerPipeline]
  rw [foldl_multiWrite]
  simp [tarStreamBytes, multiWrite]

theorem processManifests_eq (p : Prims) (destDir : String) :
    ∀ (ms : List FromManifestEntry) (st : BuildState) (cfg : ImageSpecImage),
      processManifests p destDir ms st cfg =
        (manifestsState p destDir ms st, manifestsDescs ms,
         manifestsDiffIds ms, manifestsLastConfig ms cfg) := by
  intro ms
  induction ms with
  | nil =>
    intro st cfg
    simp [processManifests, manifestsState, manifestsDescs, manifestsDiffIds,
      manifestsLastConfig]
  | cons m rest ih =>
    intro st cfg
    unfold processManifests
    rcases hm : (m.mediaType == MediaTypeImageManifest) with _ | _
    · have hm' : ¬ m.mediaType = MediaTypeImageManifest := by
        simpa using hm
      simp only [if_neg hm', ih]
      simp [manifestsState, manifestsDescs, manifestsDiffIds,
        manifestsLastConfig, List.filter_cons, hm]
    · have hm' : m.mediaType = MediaTypeImageManifest := by
        simpa using hm
      simp only [if_pos hm', ih]
      simp [manifestsState, manifestsDescs, manifestsDiffIds,
        manifestsLastConfig, List.filter_cons, hm]

theorem buildImage_ok {p : Prims} {fsys : String → Option Bytes}
    {fi : Option FromImage} {args : BuildImageArgs} {r : BuildOutput}
    (h : BuildImage p fsys fi args = .ok r) :
    (writeDestFiles fsys "" args.files).2 = none ∧
    (buildDestDirs fsys "" args.dirs).2 = none ∧
    r = buildResult p fsys fi args := by
  unfold BuildImage at h
  rcases hw : writeDestFiles fsys "" args.files with ⟨fileItems, ferr⟩
  rw [hw] at h
  cases ferr with
  | some e => simp at h
  | none =>
  rcases hd : buildDestDirs fsys "" args.dirs with ⟨dirItems, derr⟩
  rw [hd] at h
  cases derr with
  | some e => simp at h
  | none =>
  simp only at h
  refine ⟨rfl, rfl, ?_⟩
  unfold fromPhase at h
  by_cases hfp : args.fromPath = ""
  · rw [if_pos hfp] at h
    simp only [Except.ok.injEq] at h
    subst h
    simp [buildResult, fromManifestsOf, preFromState, ownLayerDesc,
      ownLayerDiffId, ownLayerItems, manifestsState, manifestsDescs,
      manifestsDiffIds, manifestsLastConfig, hfp, hw, hd]
  · rw [if_neg hfp] at h
    cases fi with
    | none => simp at h
    | some f =>
      simp only [processManifests_eq, Except.ok.injEq] at h
      subst h
      simp [buildResult, fromManifestsOf, preFromState, ownLayerDesc,
        ownLayerDiffId, ownLayerItems, hfp, hw, hd]

theorem exists_ok {e : Except String BuildOutput} (h : e.isOk = true) :
    ∃ r, e = .ok r := by
  cases e with
  | error _ => simp [Except.isOk, Except.toBool] at h
  | ok r => exact ⟨r, rfl⟩

/-! ### Total projections of a build result (defaults on the error side) -/

def hashOf : Except String BuildOutput → String
  | .ok r => r.hash
  | .error _ => ""

def configDigestOf : Except String BuildOutput → Digest
  | .ok r => r.configDigest
  | .error _ => ⟨""⟩

def manifestDigestOf : Except String BuildOutput → Digest
  | .ok r => r.manifestDigest
  | .error _ => ⟨""⟩

def configEnvOf : Except String BuildOutput → List String
  | .ok r => r.configDoc.config.env
  | .error _ => []

def configOsOf : Except String BuildOutput → String
  | .ok r => r.configDoc.os
  | .error _ => ""

def configArchOf : Except String BuildOutput → String
  | .ok r => r.configDoc.architecture
  | .error _ => ""

def configCmdOf : Except String BuildOutput → List String
  | .ok r => r.configDoc.config.cmd
  | .error _ => []

def configEntrypointOf : Except String BuildOutput → List String
  | .ok r => r.configDoc.config.entrypoint
  | .error _ => []

def configStopSignalOf : Except String BuildOutput → String
  | .ok r => r.configDoc.config.stopSignal
  | .error _ => ""

def configLabelsOf : Except String BuildOutput → List (String × String)
  | .ok r => r.configDoc.config.labels
  | .error _ => []

def configPortsOf : Except String BuildOutput → List String
  | .ok r => r.configDoc.config.exposedPorts
  | .error _ => []

def manifestLayersOf : Except String BuildOutput → List Descriptor
  | .ok r => r.manifestDoc.layers
  | .error _ => []

def diffIdsOf : Except String BuildOutput → List Digest
  | .ok r => r.configDoc.rootfs.diffIds
  | .error _ => []

def writeLogOf : Except String BuildOutput → List (String × Bytes)
  | .ok r => r.writeLog
  | .error _ => []

def hashDataOf : Except String BuildOutput → List (String × HashVal)
  | .ok r => r.hashData
  | .error _ => []

/-! ### Fixtures for concrete witness runs -/

/-- A computable instantiation of the primitives for concrete runs: every
digest is the lowercase hex string "0", gzip is the identity, the renderers
return the empty stream. (All general theorems hold for every
instantiation.) -/
def testPrims : Prims :=
  ⟨fun _ => "0", id, fun _ => [], [], [], fun _ => [], fun _ => [], fun _ => [],
   fun _ => []⟩

/-- A tiny file system with one source file. -/
def testFsys : String → Option Bytes :=
  fun s => if s = "/src/hello" then some [104, 105] else none

/-- Scratch-build arguments: no FROM image, one file. -/
def scratchArgs : BuildImageArgs :=
  { fromPath := "", architecture := "amd64", os := "linux", dirs := [],
    files := [⟨"hello", "/src/hello", ""⟩], clearEnv := false, addEnv := [],
    workingDir := "", user := "", entrypoint := [], cmd := [], ports := [],
    stopSignal := "", labels := [], destDirPath := "/out" }

/-- A FROM image fixture builder: one image manifest with the given config and
layers. -/
def mkFromImage (cfg : ImageSpecImage) (layers : List FromLayer) : FromImage :=
  ⟨[⟨MediaTypeImageManifest, layers, cfg⟩]⟩

/-- The CLI argument validation of `main0` (`main.go` lines 66–68): the
configuration is rejected only when `from`, `os` and `arch` are all empty. -/
def main0RejectsConfig (fromRef osArg archArg : String) : Bool :=
  fromRef == "" && osArg == "" && archArg == ""

/-! ### Claims -/

/-- C3: the claim says `BuildImage` fails when `FromPath` is empty and
`Architecture` or `Os` is empty.  The code does not: with no FROM image,
architecture `"amd64"` and an empty OS, the CLI guard (`main0RejectsConfig`,
which rejects only when from, os AND arch are all empty) lets the
configuration through and `BuildImage` succeeds, writing a config whose OS
platform field is empty — contradicting the spec's stated hard requirement
and the comment on `BuildImageArgs.FromPath` ("if zero then scratch …, need
Architecture and Os"). -/
theorem c3_missing_os_not_rejected :
    main0RejectsConfig "" "" "amd64" = false ∧
    (BuildImage testPrims testFsys none { scratchArgs with os := "" }).isOk = true ∧
    configOsOf (BuildImage testPrims testFsys none { scratchArgs with os := "" }) = "" ∧
    configArchOf (BuildImage testPrims testFsys none { scratchArgs with os := "" }) = "amd64" :=
  ⟨by decide, by decide, by decide, by decide⟩

/-- C7: with an absent (empty) mode string, both `writeDestFile` and
`buildDestDir` write a tar header whose mode is octal 644
(`strconv.ParseInt("644", 8, 32) = 0o644`); an invalid octal mode string
makes either function fail with a configuration error, emitting no entry. -/
theorem c7_mode_defaults (fsys : String → Option Bytes) (parentPath : String) :
    (∀ (f : BuildImageArgsFile) (content : Bytes),
        f.mode = "" → f.name.data.contains '/' = false →
        fsys f.source = some content →
        (writeDestFile fsys parentPath f).1.map (fun i => i.header.mode) = [0o644]) ∧
    (∀ (name : String) (dirs : List BuildImageArgsDir)
        (files : List BuildImageArgsFile),
        name.data.contains '/' = false →
        ((buildDestDir fsys parentPath (.mk name "" dirs files)).1.head?).map
          (fun i => i.header.mode) = some 0o644) ∧
    (∀ f : BuildImageArgsFile,
        f.name.data.contains '/' = false →
        parseOctal (Def f.mode "644") = none →
        (writeDestFile fsys parentPath f).1 = [] ∧
        (writeDestFile fsys parentPath f).2.isSome = true) ∧
    (∀ (name mode : String) (dirs : List BuildImageArgsDir)
        (files : List BuildImageArgsFile),
        name.data.contains '/' = false →
        parseOctal (Def mode "644") = none →
        (buildDestDir fsys parentPath (.mk name mode dirs files)).1 = [] ∧
        (buildDestDir fsys parentPath (.mk name mode dirs files)).2.isSome = true) := by
  have h644 : parseOctal (Def "" "644") = some 0o644 := by decide
  refine ⟨?_, ?_, ?_, ?_⟩
  · intro f content hm hn hs
    have hn' : ¬ ('/' ∈ f.name.data) := by simpa using hn
    simp [writeDestFile, hn', hm, hs, h644]
  · intro name dirs files hn
    have hn' : ¬ ('/' ∈ name.data) := by simpa using hn
    cases hsub : (buildDestDirs fsys
        (if parentPath = "" then name else parentPath ++ "/" ++ name) dirs).2 with
    | some e =>
      simp [buildDestDir, hn', h644, hsub]
    | none =>
      simp [buildDestDir, hn', h644, hsub]
  · intro f hn hbad
    have hn' : ¬ ('/' ∈ f.name.data) := by simpa using hn
    simp [writeDestFile, hn', hbad]
  · intro name mode dirs files hn hbad
    have hn' : ¬ ('/' ∈ name.data) := by simpa using hn
    simp [buildDestDir, hn', hbad]

/-- Witness for C7 at concrete inputs: a file and a directory with empty mode
get header mode 0o644; the mode string "99" is rejected for both. -/
theorem c7_mode_defaults_witness :
    ((writeDestFile testFsys "" ⟨"hello", "/src/hello", ""⟩).1.map
        (fun i => i.header.mode) = [0o644]) ∧
    (((buildDestDir testFsys "" (.mk "etc" "" [] [])).1.head?).map
        (fun i => i.header.mode) = some 0o644) ∧
    ((writeDestFile testFsys "" ⟨"bad", "/src/hello", "99"⟩).1 = [] ∧
      (writeDestFile testFsys "" ⟨"bad", "/src/hello", "99"⟩).2.isSome = true) ∧
    ((buildDestDir testFsys "" (.mk "badd" "99" [] [])).1 = [] ∧
      (buildDestDir testFsys "" (.mk "badd" "99" [] [])).2.isSome = true) :=
  ⟨(c7_mode_defaults testFsys "").1 ⟨"hello", "/src/hello", ""⟩ [104, 105] rfl
      (by decide) (by decide),
   (c7_mode_defaults testFsys "").2.1 "etc" [] [] (by decide),
   (c7_mode_defaults testFsys "").2.2.1 ⟨"bad", "/src/hello", "99"⟩ (by decide)
      (by decide),
   (c7_mode_defaults testFsys "").2.2.2 "badd" "99" [] [] (by decide) (by decide)⟩

/-- C9: on every successful build the environment list written to the config
is sorted ascending in the byte-lexicographic string order, whatever the
order of the base environment or override pairs (the code sorts
`base ++ overrides` with `sort.Slice` before writing it). -/
theorem c9_env_sorted (p : Prims) (fsys : String → Option Bytes)
    (fi : Option FromImage) (args : BuildImageArgs)
    (h : (BuildImage p fsys fi args).isOk = true) :
    List.Sorted strLeP (configEnvOf (BuildImage p fsys fi args)) := by
  obtain ⟨r, hr⟩ := exists_ok h
  obtain ⟨-, -, hres⟩ := buildImage_ok hr
  rw [hr, hres]
  simp only [configEnvOf, buildResult, assemble, canonImage, composeConfig,
    sortStrings]
  exact List.sorted_insertionSort _ _

/-- Witness for C9: a build whose base env and overrides are each unsorted
still yields a sorted environment list. -/
theorem c9_env_sorted_witness :
    ((BuildImage testPrims testFsys none
        { scratchArgs with addEnv := [("B", "2"), ("A", "1")] }).isOk = true) ∧
    List.Sorted strLeP (configEnvOf (BuildImage testPrims testFsys none
        { scratchArgs with addEnv := [("B", "2"), ("A", "1")] })) :=
  ⟨by decide, c9_env_sorted _ _ _ _ (by decide)⟩

/-- A FROM image whose config has environment `["Z=9"]`. -/
def fromEnvZ : FromImage :=
  mkFromImage
    { emptyImage with config := { emptyImage.config with env := ["Z=9"] } } []

/-- A FROM image whose config has environment `["A=1"]`. -/
def fromEnvA : FromImage :=
  mkFromImage
    { emptyImage with config := { emptyImage.config with env := ["A=1"] } } []

/-- Arguments with a FROM image and override env `{"A": "1"}`. -/
def c2CounterArgs : BuildImageArgs :=
  { scratchArgs with
    fromPath := "/from.tar"
    addEnv := [("A", "1")] }

/-- C2 counterexample: the claim says the environment written to the config
is the base list with one `KEY=VALUE` appended per override — i.e.
`["Z=9", "A=1"]` for base `["Z=9"]` and override `{"A": "1"}` with
`clear_env=false`.  The build instead sorts the merged list and produces
`["A=1", "Z=9"]`. -/
theorem c2_counterexample :
    (BuildImage testPrims testFsys (some fromEnvZ) c2CounterArgs).isOk = true ∧
    configEnvOf (BuildImage testPrims testFsys (some fromEnvZ) c2CounterArgs) =
      ["A=1", "Z=9"] ∧
    ¬ configEnvOf (BuildImage testPrims testFsys (some fromEnvZ) c2CounterArgs) =
      ["Z=9", "A=1"] :=
  ⟨by decide, by decide, by decide⟩

/-- C2 amended: on every successful build the environment list written to the
config is the ascending sort of the base image's environment list (or the
empty list when the clear-env flag is set) with one `KEY=VALUE` string
appended for each override pair; the claim's two concrete examples hold as
stated because their expected lists are already sorted. -/
theorem c2_env_merge_sorted (p : Prims) (fsys : String → Option Bytes)
    (fi : Option FromImage) (args : BuildImageArgs)
    (h : (BuildImage p fsys fi args).isOk = true) :
    configEnvOf (BuildImage p fsys fi args) =
      sortStrings
        ((if args.clearEnv then []
          else (manifestsLastConfig (fromManifestsOf args.fromPath fi)
            emptyImage).config.env)
          ++ args.addEnv.map (fun kv => kv.1 ++ "=" ++ kv.2)) := by
  obtain ⟨r, hr⟩ := exists_ok h
  obtain ⟨-, -, hres⟩ := buildImage_ok hr
  rw [hr, hres]
  simp [configEnvOf, buildResult, assemble, canonImage, composeConfig]

/-- Arguments for the claim's clear-env example: base `["A=1"]`, override
`{"B": "2"}`, `clear_env=true`. -/
def c2ClearArgs : BuildImageArgs :=
  { scratchArgs with
    fromPath := "/from.tar"
    clearEnv := true
    addEnv := [("B", "2")] }

/-- Same but with `clear_env=false`. -/
def c2KeepArgs : BuildImageArgs :=
  { c2ClearArgs with clearEnv := false }

/-- Witness for C2 amended, exhibiting the claim's two examples: base env
`["A=1"]`, override `{"B": "2"}`; with `clear_env=true` the result is exactly
`["B=2"]`, with `clear_env=false` it is `["A=1", "B=2"]`. -/
theorem c2_env_merge_sorted_witness :
    ((BuildImage testPrims testFsys (some fromEnvA) c2ClearArgs).isOk = true) ∧
    configEnvOf (BuildImage testPrims testFsys (some fromEnvA) c2ClearArgs) =
      sortStrings
        ((if c2ClearArgs.clearEnv then []
          else (manifestsLastConfig
            (fromManifestsOf c2ClearArgs.fromPath (some fromEnvA))
            emptyImage).config.env)
          ++ c2ClearArgs.addEnv.map (fun kv => kv.1 ++ "=" ++ kv.2)) ∧
    configEnvOf (BuildImage testPrims testFsys (some fromEnvA) c2ClearArgs) =
      ["B=2"] ∧
    configEnvOf (BuildImage testPrims testFsys (some fromEnvA) c2KeepArgs) =
      ["A=1", "B=2"] :=
  ⟨by decide,
   c2_env_merge_sorted testPrims testFsys (some fromEnvA) c2ClearArgs (by decide),
   by decide, by decide⟩

/-- C5: the entrypoint, cmd, exposed ports, labels and stop signal in the
produced config are functions of the overrides alone (`args.Entrypoint`,
`args.Cmd`, the port set from `args.Ports`, `args.Labels`, `args.StopSignal`
— labels and ports appear canonically sorted in the serialized document);
the base image's values for these fields are never consulted. -/
theorem c5_overrides_only (p : Prims) (fsys : String → Option Bytes)
    (fi : Option FromImage) (args : BuildImageArgs)
    (h : (BuildImage p fsys fi args).isOk = true) :
    configEntrypointOf (BuildImage p fsys fi args) = args.entrypoint ∧
    configCmdOf (BuildImage p fsys fi args) = args.cmd ∧
    configStopSignalOf (BuildImage p fsys fi args) = args.stopSignal ∧
    configLabelsOf (BuildImage p fsys fi args) = sortByKey args.labels ∧
    configPortsOf (BuildImage p fsys fi args) = sortStrings (portsSet args.ports) := by
  obtain ⟨r, hr⟩ := exists_ok h
  obtain ⟨-, -, hres⟩ := buildImage_ok hr
  rw [hr, hres]
  simp [configEntrypointOf, configCmdOf, configStopSignalOf, configLabelsOf,
    configPortsOf, buildResult, assemble, canonImage, composeConfig]

/-- A FROM image whose config has `cmd = ["/old"]`. -/
def fromCmdOld : FromImage :=
  mkFromImage
    { emptyImage with config := { emptyImage.config with cmd := ["/old"] } } []

/-- Arguments with a FROM image set and no overrides. -/
def c5Args : BuildImageArgs :=
  { scratchArgs with fromPath := "/from.tar" }

/-- Witness for C5: with a base image whose cmd is `["/old"]` and no override
cmd, the resulting config's cmd is empty. -/
theorem c5_overrides_only_witness :
    ((BuildImage testPrims testFsys (some fromCmdOld) c5Args).isOk = true) ∧
    (configEntrypointOf (BuildImage testPrims testFsys (some fromCmdOld) c5Args) =
        c5Args.entrypoint ∧
     configCmdOf (BuildImage testPrims testFsys (some fromCmdOld) c5Args) =
        c5Args.cmd ∧
     configStopSignalOf (BuildImage testPrims testFsys (some fromCmdOld) c5Args) =
        c5Args.stopSignal ∧
     configLabelsOf (BuildImage testPrims testFsys (some fromCmdOld) c5Args) =
        sortByKey c5Args.labels ∧
     configPortsOf (BuildImage testPrims testFsys (some fromCmdOld) c5Args) =
        sortStrings (portsSet c5Args.ports)) ∧
    configCmdOf (BuildImage testPrims testFsys (some fromCmdOld) c5Args) = [] :=
  ⟨by decide,
   c5_overrides_only testPrims testFsys (some fromCmdOld) c5Args (by decide),
   by decide⟩

theorem writeDestFiles_err_of_mem {fsys : String → Option Bytes}
    {parentPath : String} {f : BuildImageArgsFile}
    (hf : (writeDestFile fsys parentPath f).2.isSome = true) :
    ∀ {l : List BuildImageArgsFile}, f ∈ l →
      (writeDestFiles fsys parentPath l).2.isSome = true := by
  intro l
  induction l with
  | nil => intro hmem; cases hmem
  | cons g rest ih =>
    intro hmem
    unfold writeDestFiles
    rcases List.mem_cons.mp hmem with rfl | hmem'
    · rcases hw : (writeDestFile fsys parentPath f).2 with _ | e
      · rw [hw] at hf; simp at hf
      · simp [hw]
    · rcases hw : (writeDestFile fsys parentPath g).2 with _ | e
      · simpa [hw] using ih hmem'
      · simp [hw]

theorem buildDestDirs_err_of_mem {fsys : String → Option Bytes}
    {parentPath : String} {d : BuildImageArgsDir}
    (hd : (buildDestDir fsys parentPath d).2.isSome = true) :
    ∀ {l : List BuildImageArgsDir}, d ∈ l →
      (buildDestDirs fsys parentPath l).2.isSome = true := by
  intro l
  induction l with
  | nil => intro hmem; cases hmem
  | cons g rest ih =>
    intro hmem
    unfold buildDestDirs
    rcases List.mem_cons.mp hmem with rfl | hmem'
    · rcases hw : (buildDestDir fsys parentPath d).2 with _ | e
      · rw [hw] at hd; simp at hd
      · simp [hw]
    · rcases hw : (buildDestDir fsys parentPath g).2 with _ | e
      · simpa [hw] using ih hmem'
      · simp [hw]

theorem buildImage_fails_of_file_err {p : Prims} {fsys : String → Option Bytes}
    {fi : Option FromImage} {args : BuildImageArgs}
    (hf : (writeDestFiles fsys "" args.files).2.isSome = true) :
    (BuildImage p fsys fi args).isOk = false := by
  unfold BuildImage
  rcases hw : writeDestFiles fsys "" args.files with ⟨items, err⟩
  rw [hw] at hf
  cases err with
  | none => simp at hf
  | some e => simp [Except.isOk, Except.toBool]

theorem buildImage_fails_of_dir_err {p : Prims} {fsys : String → Option Bytes}
    {fi : Option FromImage} {args : BuildImageArgs}
    (hd : (buildDestDirs fsys "" args.dirs).2.isSome = true) :
    (BuildImage p fsys fi args).isOk = false := by
  unfold BuildImage
  rcases hw : writeDestFiles fsys "" args.files with ⟨items, err⟩
  cases err with
  | some e => simp [Except.isOk, Except.toBool]
  | none =>
    rcases hdd : buildDestDirs fsys "" args.dirs with ⟨ditems, derr⟩
    rw [hdd] at hd
    cases derr with
    | none => simp at hd
    | some e => simp [Except.isOk, Except.toBool]

/-- C6: a file or directory entry whose name contains `'/'` makes
`writeDestFile`/`buildDestDir` fail with the configuration error before
writing that entry's tar header (nothing is emitted for the entry, so the
slash is never stripped or corrected), and a build containing such an entry
fails. -/
theorem c6_slash_rejected (fsys : String → Option Bytes) (parentPath : String)
    (f : BuildImageArgsFile) (d : BuildImageArgsDir)
    (hf : f.name.data.contains '/' = true)
    (hd : d.name.data.contains '/' = true) :
    writeDestFile fsys parentPath f =
      ([], some ("Dir " ++ f.name ++
        " name contains slashes; subdirs must be nested as objects")) ∧
    buildDestDir fsys parentPath d =
      ([], some ("Dir " ++ d.name ++
        " name contains slashes; subdirs must be nested as objects")) ∧
    (∀ (p : Prims) (fi : Option FromImage) (args : BuildImageArgs),
      f ∈ args.files → (BuildImage p fsys fi args).isOk = false) ∧
    (∀ (p : Prims) (fi : Option FromImage) (args : BuildImageArgs),
      d ∈ args.dirs → (BuildImage p fsys fi args).isOk = false) := by
  have hf' : '/' ∈ f.name.data := by simpa using hf
  have hfile : writeDestFile fsys parentPath f =
      ([], some ("Dir " ++ f.name ++
        " name contains slashes; subdirs must be nested as objects")) := by
    simp [writeDestFile, hf']
  have hdir : buildDestDir fsys parentPath d =
      ([], some ("Dir " ++ d.name ++
        " name contains slashes; subdirs must be nested as objects")) := by
    cases d with
    | mk name mode dirs files =>
      have hd' : '/' ∈ name.data := by simpa [BuildImageArgsDir.name] using hd
      simp [buildDestDir, BuildImageArgsDir.name, hd']
  refine ⟨hfile, hdir, ?_, ?_⟩
  · intro p fi args hmem
    have hferr : (writeDestFile fsys "" f).2.isSome = true := by
      have : writeDestFile fsys "" f =
          ([], some ("Dir " ++ f.name ++
            " name contains slashes; subdirs must be nested as objects")) := by
        simp [writeDestFile, hf']
      rw [this]
      rfl
    exact buildImage_fails_of_file_err (writeDestFiles_err_of_mem hferr hmem)
  · intro p fi args hmem
    have hderr : (buildDestDir fsys "" d).2.isSome = true := by
      cases d with
      | mk name mode dirs files =>
        have hd' : '/' ∈ name.data := by simpa [BuildImageArgsDir.name] using hd
        simp [buildDestDir, hd']
    exact buildImage_fails_of_dir_err (buildDestDirs_err_of_mem hderr hmem)

/-- Witness for C6 at concrete inputs: a file named `"a/b"` and a directory
named `"c/d"` are rejected, and a build whose file list contains the file
fails. -/
theorem c6_slash_rejected_witness :
    (writeDestFile testFsys "" ⟨"a/b", "/src/hello", ""⟩ =
      ([], some ("Dir " ++ "a/b" ++
        " name contains slashes; subdirs must be nested as objects"))) ∧
    (buildDestDir testFsys "" (.mk "c/d" "" [] []) =
      ([], some ("Dir " ++ "c/d" ++
        " name contains slashes; subdirs must be nested as objects"))) ∧
    (BuildImage testPrims testFsys none
      { scratchArgs with files := [⟨"a/b", "/src/hello", ""⟩] }).isOk = false := by
  have h := c6_slash_rejected testFsys "" ⟨"a/b", "/src/hello", ""⟩
    (.mk "c/d" "" [] []) (by decide) (by decide)
  exact ⟨h.1, h.2.1, h.2.2.1 testPrims none _ (by decide)⟩

theorem manifestsDescs_length_eq {ms : List FromManifestEntry}
    (halign : ∀ m ∈ ms, m.mediaType = MediaTypeImageManifest →
      m.layers.length = m.config.rootfs.diffIds.length) :
    (manifestsDescs ms).length = (manifestsDiffIds ms).length := by
  induction ms with
  | nil => rfl
  | cons m rest ih =>
    have ih' := ih (fun x hx hmt => halign x (List.mem_cons_of_mem m hx) hmt)
    rcases hm : (m.mediaType == MediaTypeImageManifest) with _ | _
    · simp [manifestsDescs, manifestsDiffIds, List.filter_cons, hm] at ih' ⊢
      exact ih'
    · have hm' : m.mediaType = MediaTypeImageManifest := by simpa using hm
      have hlen := halign m (List.mem_cons_self m rest) hm'
      simp [manifestsDescs, manifestsDiffIds, List.filter_cons, hm] at ih' ⊢
      omega

/-- C4: on every successful build whose base manifests each have their layer
list and diffID list of equal length, the produced manifest's layer list is
the newly built layer's descriptor followed by the base layer descriptors in
order, the config's diffID list is the newly built layer's diffID followed by
the base diffIDs in order (so the lists are index-aligned, with the new layer
at index 0), and the two lists have equal length. -/
theorem c4_layer_alignment (p : Prims) (fsys : String → Option Bytes)
    (fi : Option FromImage) (args : BuildImageArgs)
    (h : (BuildImage p fsys fi args).isOk = true)
    (halign : ∀ m ∈ fromManifestsOf args.fromPath fi,
      m.mediaType = MediaTypeImageManifest →
      m.layers.length = m.config.rootfs.diffIds.length) :
    manifestLayersOf (BuildImage p fsys fi args) =
      ownLayerDesc p fsys args ::
        manifestsDescs (fromManifestsOf args.fromPath fi) ∧
    diffIdsOf (BuildImage p fsys fi args) =
      ownLayerDiffId p fsys args ::
        manifestsDiffIds (fromManifestsOf args.fromPath fi) ∧
    (manifestLayersOf (BuildImage p fsys fi args)).length =
      (diffIdsOf (BuildImage p fsys fi args)).length := by
  obtain ⟨r, hr⟩ := exists_ok h
  obtain ⟨-, -, hres⟩ := buildImage_ok hr
  rw [hr, hres]
  refine ⟨?_, ?_, ?_⟩
  · simp [manifestLayersOf, buildResult, assemble]
  · simp [diffIdsOf, buildResult, assemble, canonImage, composeConfig]
  · simp [manifestLayersOf, diffIdsOf, buildResult, assemble, canonImage,
      composeConfig, manifestsDescs_length_eq halign]

/-- A FROM image with two layers, its diffID list index-aligned with them. -/
def fromTwoLayers : FromImage :=
  mkFromImage
    { emptyImage with rootfs := ⟨"layers", [⟨"aa"⟩, ⟨"bb"⟩]⟩ }
    [⟨⟨MediaTypeImageLayerGzip, ⟨"11"⟩, 1⟩, [7]⟩,
     ⟨⟨MediaTypeImageLayerGzip, ⟨"22"⟩, 1⟩, [8]⟩]

/-- Witness for C4: a two-layer base plus the new layer gives index-aligned
lists of length 3 with the new layer at index 0. -/
theorem c4_layer_alignment_witness :
    ((BuildImage testPrims testFsys (some fromTwoLayers) c5Args).isOk = true) ∧
    (manifestLayersOf (BuildImage testPrims testFsys (some fromTwoLayers) c5Args) =
        ownLayerDesc testPrims testFsys c5Args ::
          manifestsDescs (fromManifestsOf c5Args.fromPath (some fromTwoLayers)) ∧
      diffIdsOf (BuildImage testPrims testFsys (some fromTwoLayers) c5Args) =
        ownLayerDiffId testPrims testFsys c5Args ::
          manifestsDiffIds (fromManifestsOf c5Args.fromPath (some fromTwoLayers)) ∧
      (manifestLayersOf (BuildImage testPrims testFsys (some fromTwoLayers) c5Args)).length =
        (diffIdsOf (BuildImage testPrims testFsys (some fromTwoLayers) c5Args)).length) ∧
    (manifestLayersOf (BuildImage testPrims testFsys (some fromTwoLayers) c5Args)).length = 3 ∧
    (diffIdsOf (BuildImage testPrims testFsys (some fromTwoLayers) c5Args)).length = 3 :=
  ⟨by decide,
   c4_layer_alignment testPrims testFsys (some fromTwoLayers) c5Args
     (by decide) (by decide),
   by decide, by decide⟩

theorem writeLog_mem_writeMemory {x : String × Bytes} {st : BuildState}
    {d n : String} {c : Bytes} (hx : x ∈ st.writeLog) :
    x ∈ (writeMemory d st n c).writeLog := by
  simp only [writeMemory]
  exact List.mem_append_left _ hx

theorem writeLog_mem_writeBlob {x : String × Bytes} {st : BuildState}
    {d : String} {dg : Digest} {c : Bytes} (hx : x ∈ st.writeLog) :
    x ∈ (writeBlob d st dg c).writeLog := by
  simp only [writeBlob]
  exact writeLog_mem_writeMemory hx

theorem writeLog_mem_writeBlobReader {x : String × Bytes} {p : Prims}
    {st : BuildState} {d : String} {dg : Digest} {c : Bytes}
    (hx : x ∈ st.writeLog) : x ∈ (writeBlobReader p d st dg c).writeLog := by
  simp only [writeBlobReader]
  exact List.mem_append_left _ hx

theorem writeLog_mem_copyFromLayers {x : String × Bytes} {p : Prims}
    {d : String} (ls : List FromLayer) :
    ∀ {st : BuildState}, x ∈ st.writeLog →
      x ∈ (copyFromLayers p d ls st).writeLog := by
  induction ls with
  | nil => intro st hx; exact hx
  | cons l rest ih =>
    intro st hx
    exact ih (writeLog_mem_writeBlobReader hx)

theorem writeLog_mem_manifestsState {x : String × Bytes} {p : Prims}
    {d : String} (ms : List FromManifestEntry) :
    ∀ {st : BuildState}, x ∈ st.writeLog →
      x ∈ (manifestsState p d ms st).writeLog := by
  unfold manifestsState
  induction ms with
  | nil => intro st hx; exact hx
  | cons m rest ih =>
    intro st hx
    rcases hm : (m.mediaType == MediaTypeImageManifest) with _ | _
    · simpa [List.filter_cons, hm] using ih hx
    · simpa [List.filter_cons, hm] using
        ih (writeLog_mem_copyFromLayers m.layers hx)

theorem writeLog_mem_assemble {x : String × Bytes} {p : Prims} {d : String}
    {st : BuildState} {lm : List Descriptor} {cfg : ImageSpecImage}
    (hx : x ∈ st.writeLog) : x ∈ (assemble p d st lm cfg).writeLog := by
  simp only [assemble]
  exact writeLog_mem_writeMemory (writeLog_mem_writeBlob (writeLog_mem_writeBlob hx))

/-- C8: on every successful build the newly built layer's manifest descriptor
has digest `sha256(gzip(tar))` — the digest of the compressed bytes written
at its blob path — and size equal to that compressed stream's byte length,
while the corresponding diffID (the head of the config's diffID list) is
`sha256(tar)` over the uncompressed stream; the compressed bytes themselves
are written to the blob path under the same digest.  The streams come from
the single-pass `io.MultiWriter` fan-out modelled by `runLayerPipeline`. -/
theorem c8_layer_digests (p : Prims) (fsys : String → Option Bytes)
    (fi : Option FromImage) (args : BuildImageArgs)
    (h : (BuildImage p fsys fi args).isOk = true) :
    (manifestLayersOf (BuildImage p fsys fi args)).head? =
      some ⟨MediaTypeImageLayerGzip,
        ⟨p.sha256Hex (p.gzip (tarStreamBytes p (ownLayerItems fsys args)))⟩,
        ((p.gzip (tarStreamBytes p (ownLayerItems fsys args))).length : Int)⟩ ∧
    (diffIdsOf (BuildImage p fsys fi args)).head? =
      some ⟨p.sha256Hex (tarStreamBytes p (ownLayerItems fsys args))⟩ ∧
    (absJoin args.destDirPath
        (blobPath ⟨p.sha256Hex (p.gzip (tarStreamBytes p (ownLayerItems fsys args)))⟩),
      p.gzip (tarStreamBytes p (ownLayerItems fsys args))) ∈
      writeLogOf (BuildImage p fsys fi args) := by
  obtain ⟨r, hr⟩ := exists_ok h
  obtain ⟨-, -, hres⟩ := buildImage_ok hr
  rw [hr, hres]
  refine ⟨?_, ?_, ?_⟩
  · simp [manifestLayersOf, buildResult, assemble, ownLayerDesc,
      runLayerPipeline_eq]
  · simp [diffIdsOf, buildResult, assemble, canonImage, composeConfig,
      ownLayerDiffId, runLayerPipeline_eq]
  · simp only [writeLogOf, buildResult]
    apply writeLog_mem_assemble
    apply writeLog_mem_manifestsState
    simp [preFromState, writeBlobReader, writeMemory, ownLayerDesc,
      runLayerPipeline_eq]

/-- Witness for C8 on the scratch build. -/
theorem c8_layer_digests_witness :
    ((BuildImage testPrims testFsys none scratchArgs).isOk = true) ∧
    ((manifestLayersOf (BuildImage testPrims testFsys none scratchArgs)).head? =
      some ⟨MediaTypeImageLayerGzip,
        ⟨testPrims.sha256Hex (testPrims.gzip
          (tarStreamBytes testPrims (ownLayerItems testFsys scratchArgs)))⟩,
        ((testPrims.gzip (tarStreamBytes testPrims
          (ownLayerItems testFsys scratchArgs))).length : Int)⟩ ∧
    (diffIdsOf (BuildImage testPrims testFsys none scratchArgs)).head? =
      some ⟨testPrims.sha256Hex
        (tarStreamBytes testPrims (ownLayerItems testFsys scratchArgs))⟩ ∧
    (absJoin scratchArgs.destDirPath
        (blobPath ⟨testPrims.sha256Hex (testPrims.gzip
          (tarStreamBytes testPrims (ownLayerItems testFsys scratchArgs)))⟩),
      testPrims.gzip (tarStreamBytes testPrims
        (ownLayerItems testFsys scratchArgs))) ∈
      writeLogOf (BuildImage testPrims testFsys none scratchArgs)) :=
  ⟨by decide,
   c8_layer_digests testPrims testFsys none scratchArgs (by decide)⟩

theorem canonImage_composeConfig_perm {args : BuildImageArgs}
    {env2 lab2 : List (String × String)} (fc : ImageSpecImage)
    (diffs : List Digest)
    (henv : env2.Perm args.addEnv) (hlab : lab2.Perm args.labels)
    (hnd : (args.labels.map Prod.fst).Nodup) :
    canonImage (composeConfig { args with addEnv := env2, labels := lab2 } fc diffs) =
      canonImage (composeConfig args fc diffs) := by
  have he : sortStrings
      ((if args.clearEnv then [] else fc.config.env)
        ++ env2.map (fun kv => kv.1 ++ "=" ++ kv.2)) =
      sortStrings
        ((if args.clearEnv then [] else fc.config.env)
          ++ args.addEnv.map (fun kv => kv.1 ++ "=" ++ kv.2)) :=
    sortStrings_perm
      (List.Perm.append_left _ (henv.map (fun kv => kv.1 ++ "=" ++ kv.2)))
  have hl : sortByKey lab2 = sortByKey args.labels :=
    sortByKey_perm_nodup hlab ((hlab.map Prod.fst).nodup_iff.mpr hnd)
  simp [canonImage, composeConfig, he, hl]

theorem assemble_canon_congr {p : Prims} {d : String} {st : BuildState}
    {lm : List Descriptor} {c1 c2 : ImageSpecImage}
    (h : canonImage c1 = canonImage c2) :
    assemble p d st lm c1 = assemble p d st lm c2 := by
  unfold assemble
  rw [h]

theorem buildImage_map_order_eq {p : Prims} {fsys : String → Option Bytes}
    {fi : Option FromImage} {args : BuildImageArgs}
    {env2 lab2 : List (String × String)}
    (henv : env2.Perm args.addEnv) (hlab : lab2.Perm args.labels)
    (hnd : (args.labels.map Prod.fst).Nodup) :
    BuildImage p fsys fi { args with addEnv := env2, labels := lab2 } =
      BuildImage p fsys fi args := by
  unfold BuildImage
  dsimp only
  rcases hw : writeDestFiles fsys "" args.files with ⟨fileItems, ferr⟩
  cases ferr with
  | some e => rfl
  | none =>
  rcases hd : buildDestDirs fsys "" args.dirs with ⟨dirItems, derr⟩
  cases derr with
  | some e => rfl
  | none =>
  dsimp only
  rcases hfp : fromPhase p args.destDirPath args.fromPath fi
      (writeBlobReader p args.destDirPath
        (writeMemory args.destDirPath ⟨[], [], []⟩ "oci-layout" p.renderLayout)
        ⟨p.sha256Hex (runLayerPipeline p (fileItems ++ dirItems)).2.1⟩
        (runLayerPipeline p (fileItems ++ dirItems)).2.2) with e | q
  · rfl
  · dsimp only
    simp only [Except.ok.injEq]
    exact assemble_canon_congr (canonImage_composeConfig_perm q.2.2.2
      (⟨p.sha256Hex (runLayerPipeline p (fileItems ++ dirItems)).1⟩ :: q.2.2.1)
      henv hlab hnd)

/-- C1: two `BuildImage` invocations with identical inputs whose `AddEnv` and
`Labels` maps are presented in different iteration orders (permutations of
the same key/value pairs, keys unique as in a Go map) return the same build
hash and produce config and manifest blobs with identical digests.  (The env
list is sorted before serialization; labels and the `hashData` map are
serialized with sorted keys by `canonicalJsonMarshal`.) -/
theorem c1_map_order_determinism (p : Prims) (fsys : String → Option Bytes)
    (fi : Option FromImage) (args : BuildImageArgs)
    (env2 lab2 : List (String × String))
    (henv : env2.Perm args.addEnv) (hlab : lab2.Perm args.labels)
    (hnd : (args.labels.map Prod.fst).Nodup) :
    hashOf (BuildImage p fsys fi { args with addEnv := env2, labels := lab2 }) =
      hashOf (BuildImage p fsys fi args) ∧
    configDigestOf (BuildImage p fsys fi { args with addEnv := env2, labels := lab2 }) =
      configDigestOf (BuildImage p fsys fi args) ∧
    manifestDigestOf (BuildImage p fsys fi { args with addEnv := env2, labels := lab2 }) =
      manifestDigestOf (BuildImage p fsys fi args) := by
  rw [buildImage_map_order_eq henv hlab hnd]
  exact ⟨rfl, rfl, rfl⟩

/-- Arguments whose env and label maps have several entries. -/
def c1Args : BuildImageArgs :=
  { scratchArgs with
    addEnv := [("A", "1"), ("B", "2")]
    labels := [("k1", "v1"), ("k2", "v2")] }

/-- Witness for C1: the same maps presented in reversed iteration order give
the same hash and digests. -/
theorem c1_map_order_determinism_witness :
    (([("B", "2"), ("A", "1")] : List (String × String)).Perm c1Args.addEnv) ∧
    (([("k2", "v2"), ("k1", "v1")] : List (String × String)).Perm c1Args.labels) ∧
    ((c1Args.labels.map Prod.fst).Nodup) ∧
    (hashOf (BuildImage testPrims testFsys none
        { c1Args with addEnv := [("B", "2"), ("A", "1")],
                      labels := [("k2", "v2"), ("k1", "v1")] }) =
      hashOf (BuildImage testPrims testFsys none c1Args) ∧
    configDigestOf (BuildImage testPrims testFsys none
        { c1Args with addEnv := [("B", "2"), ("A", "1")],
                      labels := [("k2", "v2"), ("k1", "v1")] }) =
      configDigestOf (BuildImage testPrims testFsys none c1Args) ∧
    manifestDigestOf (BuildImage testPrims testFsys none
        { c1Args with addEnv := [("B", "2"), ("A", "1")],
                      labels := [("k2", "v2"), ("k1", "v1")] }) =
      manifestDigestOf (BuildImage testPrims testFsys none c1Args)) :=
  ⟨by decide, by decide, by decide,
   c1_map_order_determinism testPrims testFsys none c1Args
     [("B", "2"), ("A", "1")] [("k2", "v2"), ("k1", "v1")]
     (by decide) (by decide) (by decide)⟩

/-- A lowercase hexadecimal digit, as produced by `hex.EncodeToString` and
`digest.Digest.Hex()`. -/
def isLowerHex (c : Char) : Bool :=
  ('0'.toNat ≤ c.toNat ∧ c.toNat ≤ '9'.toNat) ∨
    ('a'.toNat ≤ c.toNat ∧ c.toNat ≤ 'f'.toNat)

/-- A nonempty string of lowercase hex digits. -/
def HexLower (s : String) : Prop :=
  s.data ≠ [] ∧ ∀ c ∈ s.data, isLowerHex c = true

instance (s : String) : Decidable (HexLower s) := by
  unfold HexLower; infer_instance

/-- The sha256 primitive produces nonempty lowercase hex strings (true of the
real `sha256` + `hex.EncodeToString`, which emits 64 lowercase hex chars). -/
def ShaHexLower (p : Prims) : Prop := ∀ b, HexLower (p.sha256Hex b)

/-- Every base layer digest carried in the FROM image is a nonempty lowercase
hex string (true of any well-formed OCI archive). -/
def FromDigestsHex (fromPath : String) (fi : Option FromImage) : Prop :=
  ∀ m ∈ fromManifestsOf fromPath fi, ∀ l ∈ m.layers,
    HexLower l.descriptor.digest.hex

/-- The shapes a `hashData` key can have: the two absolute metadata paths, an
absolute blob path, or a relative blob path — every absolute one embedding
the destination directory `d`. -/
def GoodKey (d k : String) : Prop :=
  k = absJoin d "oci-layout" ∨ k = absJoin d "index.json" ∨
    ∃ hex, HexLower hex ∧
      (k = absJoin d ("blobs/sha256/" ++ hex) ∨ k = "blobs/sha256/" ++ hex)

theorem mapSet_keys_subset {β : Type} {m : List (String × β)} {k a : String}
    {v : β} (ha : a ∈ (mapSet m k v).map Prod.fst) :
    a = k ∨ a ∈ m.map Prod.fst := by
  unfold mapSet at ha
  by_cases hany : m.any (fun kv => kv.1 == k)
  · rw [if_pos hany, List.map_map] at ha
    obtain ⟨kv, hkv, hak⟩ := List.mem_map.mp ha
    by_cases hk : kv.1 == k
    · simp [Function.comp, hk] at hak
      exact .inl hak.symm
    · simp [Function.comp, hk] at hak
      exact .inr (hak ▸ List.mem_map_of_mem Prod.fst hkv)
  · rw [if_neg hany, List.map_append] at ha
    rcases List.mem_append.mp ha with h | h
    · exact .inr h
    · simp at h
      exact .inl h

theorem mapSet_keys_mono {β : Type} {m : List (String × β)} {k a : String}
    {v : β} (ha : a ∈ m.map Prod.fst) :
    a ∈ (mapSet m k v).map Prod.fst := by
  unfold mapSet
  by_cases hany : m.any (fun kv => kv.1 == k)
  · rw [if_pos hany, List.map_map]
    obtain ⟨kv, hkv, hak⟩ := List.mem_map.mp ha
    refine List.mem_map.mpr ⟨kv, hkv, ?_⟩
    by_cases hk : kv.1 == k
    · simp [Function.comp, hk]
      have : kv.1 = k := by simpa using hk
      rw [← hak, this]
    · simp [Function.comp, hk]
      exact hak
  · rw [if_neg hany, List.map_append]
    exact List.mem_append_left _ ha

/-- Every `hashData` key of the state has one of the good shapes. -/
def StateGood (d : String) (st : BuildState) : Prop :=
  ∀ k ∈ st.hashData.map Prod.fst, GoodKey d k

theorem stateGood_writeMemory {d : String} {st : BuildState} {name : String}
    {c : Bytes} (hg : StateGood d st) (hname : GoodKey d (absJoin d name)) :
    StateGood d (writeMemory d st name c) := by
  intro k hk
  simp only [writeMemory] at hk
  rcases mapSet_keys_subset hk with rfl | hk'
  · exact hname
  · exact hg k hk'

theorem stateGood_writeBlob {d : String} {st : BuildState} {dg : Digest}
    {c : Bytes} (hg : StateGood d st) (hhex : HexLower dg.hex) :
    StateGood d (writeBlob d st dg c) := by
  intro k hk
  simp only [writeBlob] at hk
  have hrel : GoodKey d (blobPath dg) :=
    .inr (.inr ⟨dg.hex, hhex, .inr rfl⟩)
  have habs : GoodKey d (absJoin d (blobPath dg)) :=
    .inr (.inr ⟨dg.hex, hhex, .inl rfl⟩)
  rcases mapSet_keys_subset hk with rfl | hk'
  · exact habs
  · rcases mapSet_keys_subset hk' with rfl | hk''
    · exact hrel
    · exact hg k hk''

theorem stateGood_writeBlobReader {p : Prims} {d : String} {st : BuildState}
    {dg : Digest} {c : Bytes} (hg : StateGood d st) (hhex : HexLower dg.hex) :
    StateGood d (writeBlobReader p d st dg c) := by
  intro k hk
  simp only [writeBlobReader] at hk
  rcases mapSet_keys_subset hk with rfl | hk'
  · exact .inr (.inr ⟨dg.hex, hhex, .inl rfl⟩)
  · exact hg k hk'

theorem stateGood_copyFromLayers {p : Prims} {d : String}
    (ls : List FromLayer) :
    ∀ {st : BuildState}, StateGood d st →
      (∀ l ∈ ls, HexLower l.descriptor.digest.hex) →
      StateGood d (copyFromLayers p d ls st) := by
  induction ls with
  | nil => intro st hg _; exact hg
  | cons l rest ih =>
    intro st hg hl
    exact ih (stateGood_writeBlobReader hg (hl l (List.mem_cons_self l rest)))
      (fun x hx => hl x (List.mem_cons_of_mem l hx))

theorem stateGood_manifestsState {p : Prims} {d : String}
    (ms : List FromManifestEntry) :
    ∀ {st : BuildState}, StateGood d st →
      (∀ m ∈ ms, ∀ l ∈ m.layers, HexLower l.descriptor.digest.hex) →
      StateGood d (manifestsState p d ms st) := by
  unfold manifestsState
  induction ms with
  | nil => intro st hg _; exact hg
  | cons m rest ih =>
    intro st hg hm
    rcases hmt : (m.mediaType == MediaTypeImageManifest) with _ | _
    · simp only [List.filter_cons, hmt]
      exact ih hg (fun x hx => hm x (List.mem_cons_of_mem m hx))
    · simp only [List.filter_cons, hmt]
      exact ih
        (stateGood_copyFromLayers m.layers hg (hm m (List.mem_cons_self m rest)))
        (fun x hx => hm x (List.mem_cons_of_mem m hx))

theorem stateGood_assemble {p : Prims} {d : String} {st : BuildState}
    {lm : List Descriptor} {cfg : ImageSpecImage} (hsha : ShaHexLower p)
    (hg : StateGood d st) :
    ∀ k ∈ (assemble p d st lm cfg).hashData.map Prod.fst, GoodKey d k := by
  simp only [assemble]
  exact stateGood_writeMemory
    (stateGood_writeBlob (stateGood_writeBlob hg (hsha _)) (hsha _))
    (.inr (.inl rfl))

/-- Every key of a successful build's `hashData` embeds either the
destination directory (absolute metadata or blob path) or is a relative blob
path. -/
theorem buildResult_keys_good {p : Prims} {fsys : String → Option Bytes}
    {fi : Option FromImage} {args : BuildImageArgs}
    (hsha : ShaHexLower p) (hfi : FromDigestsHex args.fromPath fi) :
    ∀ k ∈ (buildResult p fsys fi args).hashData.map Prod.fst,
      GoodKey args.destDirPath k := by
  unfold buildResult
  apply stateGood_assemble hsha
  apply stateGood_manifestsState
  · apply stateGood_writeBlobReader
    · apply stateGood_writeMemory
      · intro k hk
        simp [BuildState.hashData, mapSet] at hk
      · exact .inl rfl
    · exact hsha _
  · intro m hm l hl
    exact hfi m hm l hl

theorem hashKeys_mono_writeMemory {d : String} {st : BuildState}
    {name : String} {c : Bytes} {a : String}
    (ha : a ∈ st.hashData.map Prod.fst) :
    a ∈ (writeMemory d st name c).hashData.map Prod.fst := by
  simp only [writeMemory]
  exact mapSet_keys_mono ha

theorem hashKeys_mono_writeBlob {d : String} {st : BuildState} {dg : Digest}
    {c : Bytes} {a : String} (ha : a ∈ st.hashData.map Prod.fst) :
    a ∈ (writeBlob d st dg c).hashData.map Prod.fst := by
  simp only [writeBlob]
  exact hashKeys_mono_writeMemory (mapSet_keys_mono ha)

theorem hashKeys_mono_writeBlobReader {p : Prims} {d : String}
    {st : BuildState} {dg : Digest} {c : Bytes} {a : String}
    (ha : a ∈ st.hashData.map Prod.fst) :
    a ∈ (writeBlobReader p d st dg c).hashData.map Prod.fst := by
  simp only [writeBlobReader]
  exact mapSet_keys_mono ha

theorem hashKeys_mono_copyFromLayers {p : Prims} {d : String}
    (ls : List FromLayer) {a : String} :
    ∀ {st : BuildState}, a ∈ st.hashData.map Prod.fst →
      a ∈ (copyFromLayers p d ls st).hashData.map Prod.fst := by
  induction ls with
  | nil => intro st ha; exact ha
  | cons l rest ih =>
    intro st ha
    exact ih (hashKeys_mono_writeBlobReader ha)

theorem hashKeys_mono_manifestsState {p : Prims} {d : String}
    (ms : List FromManifestEntry) {a : String} :
    ∀ {st : BuildState}, a ∈ st.hashData.map Prod.fst →
      a ∈ (manifestsState p d ms st).hashData.map Prod.fst := by
  unfold manifestsState
  induction ms with
  | nil => intro st ha; exact ha
  | cons m rest ih =>
    intro st ha
    rcases hmt : (m.mediaType == MediaTypeImageManifest) with _ | _
    · simpa [List.filter_cons, hmt] using ih ha
    · simpa [List.filter_cons, hmt] using
        ih (hashKeys_mono_copyFromLayers m.layers ha)

theorem hashKeys_mono_assemble {p : Prims} {d : String} {st : BuildState}
    {lm : List Descriptor} {cfg : ImageSpecImage} {a : String}
    (ha : a ∈ st.hashData.map Prod.fst) :
    a ∈ (assemble p d st lm cfg).hashData.map Prod.fst := by
  simp only [assemble]
  exact hashKeys_mono_writeMemory (hashKeys_mono_writeBlob (hashKeys_mono_writeBlob ha))

/-- The layout file's absolute path is always a `hashData` key. -/
theorem buildResult_layout_key_mem {p : Prims} {fsys : String → Option Bytes}
    {fi : Option FromImage} {args : BuildImageArgs} :
    absJoin args.destDirPath "oci-layout" ∈
      (buildResult p fsys fi args).hashData.map Prod.fst := by
  unfold buildResult
  apply hashKeys_mono_assemble
  apply hashKeys_mono_manifestsState
  apply hashKeys_mono_writeBlobReader
  simp [writeMemory, mapSet]

theorem data_absJoin (d r : String) :
    (absJoin d r).data = d.data ++ ('/' :: r.data) := by
  simp [absJoin, String.data_append]

theorem getLast?_concat_right {A B : List Char} (h : B ≠ []) :
    (A ++ B).getLast? = B.getLast? := by
  rw [List.getLast?_append]
  rcases hlast : B.getLast? with _ | c
  · exact absurd (List.getLast?_eq_none_iff.mp hlast) h
  · rfl

theorem getLast?_absJoin {d r : String} (h : r.data ≠ []) :
    (absJoin d r).data.getLast? = r.data.getLast? := by
  rw [data_absJoin, show ('/' :: r.data) = ['/'] ++ r.data from rfl,
    ← List.append_assoc]
  exact getLast?_concat_right h

theorem head?_absJoin {d : String} (r : String) {c : Char}
    (h : d.data.head? = some c) : (absJoin d r).data.head? = some c := by
  rw [data_absJoin, List.head?_append, h]
  rfl

/-- The absolute layout path of one destination directory is not a `hashData`
key shape of another: its last character `'t'` rules out the other metadata
path and every blob path (hex digits only), and append cancellation forces
the directories to agree on the remaining case. -/
theorem layout_key_not_good {d1 d2 : String} (h1 : d1.data.head? = some '/')
    (hne : d1 ≠ d2) : ¬ GoodKey d2 (absJoin d1 "oci-layout") := by
  have hlast1 : (absJoin d1 "oci-layout").data.getLast? = some 't' := by
    rw [getLast?_absJoin (by decide)]
    decide
  intro hk
  rcases hk with hk | hk | ⟨hex, hhex, hk | hk⟩
  · have hd := congrArg String.data hk
    rw [data_absJoin, data_absJoin] at hd
    exact hne (String.ext (List.append_cancel_right hd))
  · have hlast2 := hk ▸ hlast1
    rw [getLast?_absJoin (by decide)] at hlast2
    exact absurd hlast2 (by decide)
  · have hlast2 := hk ▸ hlast1
    have hB : ("blobs/sha256/" ++ hex).data ≠ [] := by
      rw [String.data_append]
      simp
    rw [getLast?_absJoin hB, String.data_append,
      getLast?_concat_right hhex.1] at hlast2
    have hmem : 't' ∈ hex.data :=
      List.mem_of_mem_getLast? (by rw [hlast2]; rfl)
    have := hhex.2 't' hmem
    exact absurd this (by decide)
  · have hh1 : (absJoin d1 "oci-layout").data.head? = some '/' :=
      head?_absJoin _ h1
    have hh2 := hk ▸ hh1
    rw [String.data_append, List.head?_append,
      show ("blobs/sha256/" : String).data.head? = some 'b' from by decide] at hh2
    simp at hh2

/-- C10: two builds identical except for the destination directory produce
different `hashData` mappings — every build's map contains the key
`destDir ++ "/oci-layout"`, and all keys of the other build either embed the
other directory or are relative/metadata paths that cannot equal it — and
hence different canonical serializations of that mapping, which is exactly
what the returned build hash is the sha256 of.  So the build hash input is
not invariant under relocation of the output directory. -/
theorem c10_dest_dir_dependent (p : Prims) (fsys : String → Option Bytes)
    (fi : Option FromImage) (args : BuildImageArgs) (d1 d2 : String)
    (hsha : ShaHexLower p) (hfi : FromDigestsHex args.fromPath fi)
    (h1 : d1.data.head? = some '/') (_h2 : d2.data.head? = some '/')
    (hne : d1 ≠ d2)
    (hok1 : (BuildImage p fsys fi { args with destDirPath := d1 }).isOk = true)
    (hok2 : (BuildImage p fsys fi { args with destDirPath := d2 }).isOk = true) :
    hashDataOf (BuildImage p fsys fi { args with destDirPath := d1 }) ≠
      hashDataOf (BuildImage p fsys fi { args with destDirPath := d2 }) ∧
    canonHashData
        (hashDataOf (BuildImage p fsys fi { args with destDirPath := d1 })) ≠
      canonHashData
        (hashDataOf (BuildImage p fsys fi { args with destDirPath := d2 })) := by
  obtain ⟨r1, hr1⟩ := exists_ok hok1
  obtain ⟨r2, hr2⟩ := exists_ok hok2
  obtain ⟨-, -, hres1⟩ := buildImage_ok hr1
  obtain ⟨-, -, hres2⟩ := buildImage_ok hr2
  rw [hr1, hr2]
  simp only [hashDataOf]
  subst hres1
  subst hres2
  have hmem1 : absJoin d1 "oci-layout" ∈
      (buildResult p fsys fi { args with destDirPath := d1 }).hashData.map Prod.fst :=
    buildResult_layout_key_mem
  have hgood2 : ∀ k ∈
      (buildResult p fsys fi { args with destDirPath := d2 }).hashData.map Prod.fst,
      GoodKey d2 k :=
    buildResult_keys_good hsha hfi
  have hnotin : absJoin d1 "oci-layout" ∉
      (buildResult p fsys fi { args with destDirPath := d2 }).hashData.map Prod.fst := by
    intro hmem
    exact layout_key_not_good h1 hne (hgood2 _ hmem)
  constructor
  · intro heq
    rw [heq] at hmem1
    exact hnotin hmem1
  · intro heq
    have pm1 := (List.perm_insertionSort (pairKeyLe (β := HashVal))
      (buildResult p fsys fi { args with destDirPath := d1 }).hashData).map Prod.fst
    have pm2 := (List.perm_insertionSort (pairKeyLe (β := HashVal))
      (buildResult p fsys fi { args with destDirPath := d2 }).hashData).map Prod.fst
    have hm1 : absJoin d1 "oci-layout" ∈
        (canonHashData (buildResult p fsys fi
          { args with destDirPath := d1 }).hashData).map Prod.fst :=
      pm1.mem_iff.mpr hmem1
    rw [heq] at hm1
    exact hnotin (pm2.mem_iff.mp hm1)

/-- Witness for C10: destination directories `/o1` and `/o2` with otherwise
identical inputs yield different hashed mappings. -/
theorem c10_dest_dir_dependent_witness :
    ShaHexLower testPrims ∧
    FromDigestsHex scratchArgs.fromPath none ∧
    (hashDataOf (BuildImage testPrims testFsys none
        { scratchArgs with destDirPath := "/o1" }) ≠
      hashDataOf (BuildImage testPrims testFsys none
        { scratchArgs with destDirPath := "/o2" }) ∧
    canonHashData (hashDataOf (BuildImage testPrims testFsys none
        { scratchArgs with destDirPath := "/o1" })) ≠
      canonHashData (hashDataOf (BuildImage testPrims testFsys none
        { scratchArgs with destDirPath := "/o2" }))) :=
  ⟨fun _ => show HexLower "0" by decide,
   by intro m hm; simp [fromManifestsOf] at hm,
   c10_dest_dir_dependent testPrims testFsys none scratchArgs "/o1" "/o2"
     (fun _ => show HexLower "0" by decide)
     (by intro m hm; simp [fromManifestsOf] at hm)
     (by decide) (by decide) (by decide) (by decide) (by decide)⟩

end Dinker
